import Mathlib

/-!
Shallow embedding of the `vergen` package (vergen/vergen.go): a version-info
generator that shells out to git, detects whether the working tree is dirty,
and renders a fixed-template Go source file with three constants.

Go strings are modelled as `List Char` (`GoStr`); the file system as a flat
record of directories and files; the results of the three external git
commands as an environment record, since the Lean model is pure.
-/

namespace Vergen

/-- A Go string, modelled as its list of characters. -/
abbrev GoStr := List Char

/-- `strings.TrimSpace`: drop whitespace from both ends. -/
def trimSpace (s : GoStr) : GoStr :=
  ((s.dropWhile Char.isWhitespace).reverse.dropWhile Char.isWhitespace).reverse

/-- `strings.Contains s sub`: `sub` occurs as a contiguous substring of `s`. -/
def goContains (s sub : GoStr) : Bool :=
  s.tails.any (fun t => sub.isPrefixOf t)

/-- `const DefaultPkgName = "version"` (vergen.go line 15). -/
def DefaultPkgName : GoStr := "version".toList

/-- `const DefaultDirtyString = "+"` (vergen.go line 16). -/
def DefaultDirtyString : GoStr := "+".toList

/-- The process-wide configuration variables `DirtyString` and `IgnoreFiles`
(vergen.go lines 22, 28), passed explicitly since the model is pure.
(`Timeout` only controls wall-clock process killing and has no pure content;
a timeout-triggered kill surfaces as a `CmdError.timeoutKill` below.) -/
structure Config where
  DirtyString : GoStr
  IgnoreFiles : List GoStr
deriving DecidableEq

/-- The default values of the configuration variables. -/
def defaultConfig : Config :=
  { DirtyString := DefaultDirtyString, IgnoreFiles := ["version.go".toList] }

/-- Splitting the diff listing into lines (vergen.go lines 78-81):
`if strings.TrimSpace(diffIndex) != "" { diffIndexLines = strings.Split(strings.TrimSpace(diffIndex), "\n") }`,
else the slice stays nil. -/
def diffLines (diffIndex : GoStr) : List GoStr :=
  if trimSpace diffIndex ≠ [] then (trimSpace diffIndex).splitOn '\n' else []

/-- The UNCOMMITTED loop (vergen.go lines 83-96): for each line, count the
ignore entries contained in it; at the first line with zero matches the build
is dirty and the loop breaks. -/
def detectDirty (ignoreFiles : List GoStr) : List GoStr → Bool
  | [] => false
  | v :: rest =>
    let matchCount := ignoreFiles.countP (fun v2 => goContains v v2)
    if matchCount = 0 then true else detectDirty ignoreFiles rest

/-- `if uncommittedChanges { version += DirtyString }` (vergen.go lines 97-99). -/
def renderVersion (dirtyString version : GoStr) (dirty : Bool) : GoStr :=
  if dirty then version ++ dirtyString else version

/-- Why `cmd.CombinedOutput` returned a non-nil error: the process exited with
a non-zero status, was killed by the `time.AfterFunc` timeout timer, or could
not be spawned at all. -/
inductive CmdError where
  | nonZeroExit : CmdError
  | timeoutKill : CmdError
  | spawnFailure : CmdError
deriving DecidableEq

/-- The observable outcome of one external command: either it ran to
completion with exit status zero, or it failed for one of the `CmdError`
reasons; in both cases `out` is the combined stdout+stderr text captured. -/
inductive ExecOutcome where
  | exited (out : GoStr) : ExecOutcome
  | failed (err : CmdError) (out : GoStr) : ExecOutcome
deriving DecidableEq

/-- `cmd.CombinedOutput()` (vergen.go line 114): the captured combined output
together with the error, which is `none` exactly on a zero exit status. -/
def combinedOutput : ExecOutcome → GoStr × Option CmdError
  | ExecOutcome.exited out => (out, none)
  | ExecOutcome.failed e out => (out, some e)

/-- `runGitSingleLineReturn` (vergen.go lines 110-122): run the command, and
on error return `("", err)`; on success return the combined output trimmed of
surrounding whitespace, with a nil error. -/
def runGitSingleLineReturn (o : ExecOutcome) : GoStr × Option CmdError :=
  let r := combinedOutput o
  match r.2 with
  | some e => ([], some e)
  | none => (trimSpace r.1, none)

/-- The outcomes of the three git invocations made by `CreateFile`, fixed up
front since the model is pure. -/
structure GitEnv where
  describeTags : ExecOutcome
  revParse : ExecOutcome
  diffIndex : ExecOutcome
deriving DecidableEq

/-- The transient record passed to `writeVersionFile` (vergen.go lines 34-38). -/
structure versionData where
  describeTags : GoStr
  commit : GoStr
  dirty : Bool
deriving DecidableEq

/-- The errors `CreateFile` can return: the `errors.New` wrapping a failed
`git rev-parse HEAD` (vergen.go lines 68-70), or an OS error from creating or
writing the output file. -/
inductive VgError where
  | commandError (e : CmdError) : VgError
  | ioError (path : GoStr) : VgError
deriving DecidableEq

/-- A flat model of the relevant file system state: the set of existing
directories (as relative paths; the working directory itself always exists)
and the files with their contents. -/
structure FS where
  dirs : List GoStr
  files : List (GoStr × GoStr)
deriving DecidableEq

/-- Look up the contents of a file by path. -/
def lookupFile : List (GoStr × GoStr) → GoStr → Option GoStr
  | [], _ => none
  | (p, c) :: rest, q => if p = q then some c else lookupFile rest q

/-- Store contents for a path, replacing any existing entry. -/
def setFile : List (GoStr × GoStr) → GoStr → GoStr → List (GoStr × GoStr)
  | [], p, c => [(p, c)]
  | (p', c') :: rest, p, c =>
    if p' = p then (p, c) :: rest else (p', c') :: setFile rest p c

/-- The directory component of a path: everything before the last `/`, or
empty (the working directory) when the path has no slash. -/
def dirname (p : GoStr) : GoStr :=
  match p.reverse.dropWhile (fun c => c != '/') with
  | [] => []
  | _ :: rest => rest.reverse

/-- `os.Stat(DefaultPkgName)` / `os.Mkdir(DefaultPkgName, os.ModePerm)`
(vergen.go lines 126-128): ensure the fixed directory `"version"` exists.
The source discards the `os.Mkdir` error. Note it is always `DefaultPkgName`
that is created, independent of the `filename` argument. -/
def mkdirStep (fs : FS) : FS :=
  if DefaultPkgName ∈ fs.dirs then fs else { fs with dirs := DefaultPkgName :: fs.dirs }

/-- `fmt.Sprintf` of the output template (vergen.go lines 135-142): package
clause, provenance comment, and a const block with `VgVersion`, `VgHash` and
`VgClean = !data.dirty` (booleans format as `true`/`false` under `%v`). -/
def goBool (b : Bool) : GoStr := if b then "true".toList else "false".toList

/-- The full text written to the output file (vergen.go lines 135-142). -/
def versionFileContents (data : versionData) : GoStr :=
  "package ".toList ++ DefaultPkgName
  ++ "\n// auto generated by github.com/Akagi201/utils-go/vergen\nconst (\n\tVgVersion   = \"".toList
  ++ data.describeTags
  ++ "\"\n\tVgHash      = \"".toList
  ++ data.commit
  ++ "\"\n\tVgClean     = ".toList
  ++ goBool (!data.dirty)
  ++ "\n)\n".toList

/-- `writeVersionFile` (vergen.go lines 125-146): ensure the fixed directory
`DefaultPkgName` exists (Mkdir error discarded), then `os.Create(filename)` —
a truncating create that fails when the parent directory of `filename` is
absent — then write the rendered contents. -/
def writeVersionFile (fs : FS) (filename : GoStr) (data : versionData) :
    FS × Option VgError :=
  let fs1 := mkdirStep fs
  if dirname filename = [] ∨ dirname filename ∈ fs1.dirs then
    -- os.Create truncates any existing file, then file.Write stores the text
    let fs2 : FS := { fs1 with files := setFile fs1.files filename [] }
    ({ fs2 with files := setFile fs2.files filename (versionFileContents data) }, none)
  else
    (fs1, some (VgError.ioError filename))

/-- `CreateFile` (vergen.go lines 56-107). The tag lookup falls back to
`"0.1.0"` on error; a hash-lookup error aborts with a returned error; the
diff-lookup error is constructed in the source (lines 75-76) but never
checked or returned, so the listing used is whatever string came back, which
is `""` on failure. -/
def CreateFile (cfg : Config) (env : GitEnv) (fs : FS) (filename : GoStr) :
    FS × Option VgError :=
  let rVersion := runGitSingleLineReturn env.describeTags
  let version := match rVersion.2 with
    | some _ => "0.1.0".toList
    | none => rVersion.1
  let rHash := runGitSingleLineReturn env.revParse
  match rHash.2 with
  | some e => (fs, some (VgError.commandError e))
  | none =>
    let rDiff := runGitSingleLineReturn env.diffIndex
    -- the error rDiff.2 is wrapped by errors.New in the source and discarded
    let diffIndexLines := diffLines rDiff.1
    let uncommittedChanges := detectDirty cfg.IgnoreFiles diffIndexLines
    writeVersionFile fs filename
      ⟨renderVersion cfg.DirtyString version uncommittedChanges, rHash.1, uncommittedChanges⟩

/-- `Create` (vergen.go lines 49-51): `CreateFile(DefaultPkgName + "/" + DefaultPkgName + ".go")`. -/
def Create (cfg : Config) (env : GitEnv) (fs : FS) : FS × Option VgError :=
  CreateFile cfg env fs (DefaultPkgName ++ "/".toList ++ DefaultPkgName ++ ".go".toList)

/-! ### Helper lemmas -/

/-- The empty string is contained in every string. -/
theorem goContains_nil (s : GoStr) : goContains s [] = true := by
  cases s <;> rfl

/-- Storing then looking up the same path yields the stored contents. -/
theorem lookupFile_setFile_self (files : List (GoStr × GoStr)) (p c : GoStr) :
    lookupFile (setFile files p c) p = some c := by
  induction files with
  | nil => simp [setFile, lookupFile]
  | cons hd tl ih =>
    by_cases h : hd.1 = p
    · simp [setFile, h, lookupFile]
    · simp [setFile, h, lookupFile, ih]

/-- A string of whitespace characters trims to the empty string. -/
theorem trimSpace_eq_nil (s : GoStr) (h : ∀ c ∈ s, c.isWhitespace) :
    trimSpace s = [] := by
  have h1 : s.dropWhile Char.isWhitespace = [] :=
    List.dropWhile_eq_nil_iff.mpr h
  simp [trimSpace, h1]

/-- The fixed package directory exists after `mkdirStep`. -/
theorem mem_mkdirStep_dirs (fs : FS) : DefaultPkgName ∈ (mkdirStep fs).dirs := by
  by_cases h : DefaultPkgName ∈ fs.dirs <;> simp [mkdirStep, h]

/-- `mkdirStep` does not touch the files. -/
theorem mkdirStep_files (fs : FS) : (mkdirStep fs).files = fs.files := by
  by_cases h : DefaultPkgName ∈ fs.dirs <;> simp [mkdirStep, h]

/-- When the parent directory of `filename` exists (after the fixed mkdir
step), `writeVersionFile` succeeds and stores the rendered contents. -/
theorem writeVersionFile_ok (fs : FS) (filename : GoStr) (d : versionData)
    (h : dirname filename = [] ∨ dirname filename ∈ (mkdirStep fs).dirs) :
    (writeVersionFile fs filename d).2 = none ∧
    lookupFile (writeVersionFile fs filename d).1.files filename =
      some (versionFileContents d) := by
  simp only [writeVersionFile, if_pos h]
  exact ⟨trivial, lookupFile_setFile_self _ _ _⟩

/-- When the parent directory of `filename` is missing, `writeVersionFile`
fails with an IO error and leaves the files untouched. -/
theorem writeVersionFile_err (fs : FS) (filename : GoStr) (d : versionData)
    (h : ¬(dirname filename = [] ∨ dirname filename ∈ (mkdirStep fs).dirs)) :
    writeVersionFile fs filename d = (mkdirStep fs, some (VgError.ioError filename)) := by
  simp only [writeVersionFile, if_neg h]

/-! ### The claims -/

/-- Claim C1: if the commit-hash lookup (`git rev-parse HEAD`) fails,
`CreateFile` returns an error to the caller and the file system is unchanged;
in particular the file at the target path is untouched. -/
theorem c1_hash_failure_aborts (cfg : Config) (env : GitEnv) (fs : FS)
    (filename : GoStr) (e : CmdError) (out : GoStr)
    (h : env.revParse = ExecOutcome.failed e out) :
    CreateFile cfg env fs filename = (fs, some (VgError.commandError e)) ∧
    lookupFile (CreateFile cfg env fs filename).1.files filename =
      lookupFile fs.files filename := by
  have h1 : CreateFile cfg env fs filename = (fs, some (VgError.commandError e)) := by
    simp [CreateFile, h, runGitSingleLineReturn, combinedOutput]
  exact ⟨h1, by rw [h1]⟩

/-- Witness for C1 at a concrete environment where `git rev-parse HEAD`
exits non-zero. -/
theorem c1_hash_failure_aborts_witness :
    CreateFile defaultConfig
        ⟨ExecOutcome.exited "v1".toList, ExecOutcome.failed CmdError.nonZeroExit [],
         ExecOutcome.exited []⟩ ⟨[], []⟩ "version/version.go".toList
      = (⟨[], []⟩, some (VgError.commandError CmdError.nonZeroExit)) ∧
    lookupFile (CreateFile defaultConfig
        ⟨ExecOutcome.exited "v1".toList, ExecOutcome.failed CmdError.nonZeroExit [],
         ExecOutcome.exited []⟩ ⟨[], []⟩ "version/version.go".toList).1.files
        "version/version.go".toList
      = lookupFile (FS.mk [] []).files "version/version.go".toList :=
  c1_hash_failure_aborts defaultConfig _ _ _ _ _ rfl

/-- Claim C2: a listing whose every line contains some ignore entry is clean;
a line containing no ignore entry makes the result dirty, whatever comes
before it and independently of everything after it (the loop breaks there). -/
theorem c2_dirty_detection (ignore : List GoStr) :
    (∀ lines, (∀ v ∈ lines, ∃ v2 ∈ ignore, goContains v v2 = true) →
      detectDirty ignore lines = false) ∧
    (∀ pre v, (∀ v2 ∈ ignore, goContains v v2 = false) →
      ∀ post, detectDirty ignore (pre ++ v :: post) = true) := by
  constructor
  · intro lines h
    induction lines with
    | nil => rfl
    | cons a as ih =>
      obtain ⟨v2, hv2, hc⟩ := h a (List.mem_cons_self a as)
      have hcount : ignore.countP (fun w => goContains a w) ≠ 0 := by
        intro h0
        have := List.countP_eq_zero.mp h0 v2 hv2
        simp [hc] at this
      simp only [detectDirty, if_neg hcount]
      exact ih fun v hv => h v (List.mem_cons_of_mem a hv)
  · intro pre v hv post
    induction pre with
    | nil =>
      have hcount : ignore.countP (fun w => goContains v w) = 0 :=
        List.countP_eq_zero.mpr fun w hw => by simp [hv w hw]
      simp only [List.nil_append, detectDirty, if_pos hcount]
    | cons b bs ih =>
      by_cases hb : ignore.countP (fun w => goContains b w) = 0
      · simp only [List.cons_append, detectDirty, if_pos hb]
      · simp only [List.cons_append, detectDirty, if_neg hb]
        exact ih

/-- Witness for C2: with the default ignore list, `main.go` is dirty and a
line mentioning `version.go` is clean. -/
theorem c2_dirty_detection_witness :
    detectDirty ["version.go".toList] ([] ++ "main.go".toList :: []) = true ∧
    detectDirty ["version.go".toList] ["M version.go".toList] = false :=
  ⟨(c2_dirty_detection ["version.go".toList]).2 [] "main.go".toList (by decide) [],
   (c2_dirty_detection ["version.go".toList]).1 ["M version.go".toList] (by decide)⟩

/-- Claim C3: an empty or all-whitespace diff listing splits into zero lines,
and the result is clean for every ignore list. -/
theorem c3_whitespace_clean (s : GoStr) (ignore : List GoStr)
    (h : ∀ c ∈ s, c.isWhitespace) :
    diffLines s = [] ∧ detectDirty ignore (diffLines s) = false := by
  have hd : diffLines s = [] := by
    simp [diffLines, trimSpace_eq_nil s h]
  exact ⟨hd, by rw [hd]; rfl⟩

/-- Witness for C3 on the listing consisting of a space, a newline, a tab and
a space. -/
theorem c3_whitespace_clean_witness :
    diffLines " \n\t ".toList = [] ∧
    detectDirty ["version.go".toList] (diffLines " \n\t ".toList) = false :=
  c3_whitespace_clean " \n\t ".toList ["version.go".toList] (by decide)

/-- Claim C4: for every dirty-suffix `S` and tag, the rendered version is
`tag ++ S` when dirty and `tag` unchanged when clean. -/
theorem c4_dirty_suffix (S tag : GoStr) :
    renderVersion S tag true = tag ++ S ∧ renderVersion S tag false = tag :=
  ⟨rfl, rfl⟩

/-- Claim C5: when `git diff-index HEAD` fails, the runner hands back the
empty string next to the error, the error is discarded — `CreateFile` behaves
exactly as if the command had succeeded with empty output — and (when the
hash lookup succeeded and the target directory exists) a file is still
written. -/
theorem c5_diff_error_discarded (cfg : Config) (env : GitEnv) (fs : FS)
    (filename : GoStr) (e : CmdError) (out : GoStr)
    (h : env.diffIndex = ExecOutcome.failed e out) :
    runGitSingleLineReturn env.diffIndex = ([], some e) ∧
    CreateFile cfg env fs filename =
      CreateFile cfg { env with diffIndex := ExecOutcome.exited [] } fs filename ∧
    (∀ hsh, env.revParse = ExecOutcome.exited hsh →
      (dirname filename = [] ∨ dirname filename ∈ (mkdirStep fs).dirs) →
      (CreateFile cfg env fs filename).2 = none ∧
      (lookupFile (CreateFile cfg env fs filename).1.files filename).isSome = true) := by
  obtain ⟨dt, rp, di⟩ := env
  subst h
  refine ⟨rfl, rfl, ?_⟩
  intro hsh hrp hcreate
  subst hrp
  simp only [CreateFile, runGitSingleLineReturn, combinedOutput]
  refine ⟨(writeVersionFile_ok _ _ _ hcreate).1, ?_⟩
  rw [(writeVersionFile_ok _ _ _ hcreate).2]
  rfl

/-- Witness for C5: the diff command exits non-zero, yet `CreateFile`
succeeds and a file exists at the target path. -/
theorem c5_diff_error_discarded_witness :
    (CreateFile defaultConfig
        ⟨ExecOutcome.exited "v1".toList, ExecOutcome.exited "abc123".toList,
         ExecOutcome.failed CmdError.nonZeroExit "boom".toList⟩
        ⟨[], []⟩ "version/version.go".toList).2 = none ∧
    (lookupFile (CreateFile defaultConfig
        ⟨ExecOutcome.exited "v1".toList, ExecOutcome.exited "abc123".toList,
         ExecOutcome.failed CmdError.nonZeroExit "boom".toList⟩
        ⟨[], []⟩ "version/version.go".toList).1.files
        "version/version.go".toList).isSome = true :=
  (c5_diff_error_discarded defaultConfig _ _ _ CmdError.nonZeroExit "boom".toList
      rfl).2.2 "abc123".toList rfl (by decide)

/-- Claim C6: when `git describe --tags` fails but the hash lookup succeeds
and the target directory exists, `CreateFile` does not abort: the file is
written with version `"0.1.0"` (dirty suffix appended when dirty). -/
theorem c6_tag_fallback (cfg : Config) (env : GitEnv) (fs : FS) (filename : GoStr)
    (e : CmdError) (out hsh : GoStr)
    (hd : env.describeTags = ExecOutcome.failed e out)
    (hr : env.revParse = ExecOutcome.exited hsh)
    (hc : dirname filename = [] ∨ dirname filename ∈ (mkdirStep fs).dirs) :
    (CreateFile cfg env fs filename).2 = none ∧
    lookupFile (CreateFile cfg env fs filename).1.files filename =
      some (versionFileContents
        ⟨renderVersion cfg.DirtyString "0.1.0".toList
            (detectDirty cfg.IgnoreFiles
              (diffLines (runGitSingleLineReturn env.diffIndex).1)),
          trimSpace hsh,
          detectDirty cfg.IgnoreFiles
            (diffLines (runGitSingleLineReturn env.diffIndex).1)⟩) := by
  obtain ⟨dt, rp, di⟩ := env
  subst hd
  subst hr
  simp only [CreateFile, runGitSingleLineReturn, combinedOutput]
  exact writeVersionFile_ok _ _ _ hc

/-- Witness for C6: no tags exist, the hash is `abc`, the diff listing is
empty; the file is written with the fallback version `0.1.0`. -/
theorem c6_tag_fallback_witness :
    (CreateFile defaultConfig
        ⟨ExecOutcome.failed CmdError.nonZeroExit "fatal".toList,
         ExecOutcome.exited "abc".toList, ExecOutcome.exited []⟩
        ⟨[], []⟩ "version/version.go".toList).2 = none ∧
    lookupFile (CreateFile defaultConfig
        ⟨ExecOutcome.failed CmdError.nonZeroExit "fatal".toList,
         ExecOutcome.exited "abc".toList, ExecOutcome.exited []⟩
        ⟨[], []⟩ "version/version.go".toList).1.files "version/version.go".toList =
      some (versionFileContents
        ⟨renderVersion defaultConfig.DirtyString "0.1.0".toList
            (detectDirty defaultConfig.IgnoreFiles
              (diffLines (runGitSingleLineReturn (ExecOutcome.exited [])).1)),
          trimSpace "abc".toList,
          detectDirty defaultConfig.IgnoreFiles
            (diffLines (runGitSingleLineReturn (ExecOutcome.exited [])).1)⟩) :=
  c6_tag_fallback defaultConfig _ _ _ CmdError.nonZeroExit "fatal".toList "abc".toList
    rfl rfl (by decide)

/-- Counterexample to claim C7: with an empty file system and target
`a/b.go`, `writeVersionFile` does not create the destination directory `a`;
it returns an IO error and writes nothing. -/
theorem c7_dest_dir_counterexample :
    (writeVersionFile ⟨[], []⟩ "a/b.go".toList ⟨"v1".toList, "h".toList, false⟩).2 =
      some (VgError.ioError "a/b.go".toList) ∧
    "a".toList ∉
      (writeVersionFile ⟨[], []⟩ "a/b.go".toList ⟨"v1".toList, "h".toList, false⟩).1.dirs ∧
    lookupFile
      (writeVersionFile ⟨[], []⟩ "a/b.go".toList ⟨"v1".toList, "h".toList, false⟩).1.files
      "a/b.go".toList = none := by
  decide

/-- Claim C7 as amended: the directory ensured is always the fixed package
directory `version`, regardless of the output filename; when the target's
parent directory exists the write is a truncating create that overwrites any
existing file, and otherwise an IO error is returned with the files
untouched. -/
theorem c7_fixed_dir_amended (fs : FS) (filename : GoStr) (d : versionData) :
    (writeVersionFile fs filename d).1.dirs = (mkdirStep fs).dirs ∧
    DefaultPkgName ∈ (writeVersionFile fs filename d).1.dirs ∧
    (if dirname filename = [] ∨ dirname filename ∈ (mkdirStep fs).dirs
     then (writeVersionFile fs filename d).2 = none ∧
          lookupFile (writeVersionFile fs filename d).1.files filename =
            some (versionFileContents d)
     else (writeVersionFile fs filename d).2 = some (VgError.ioError filename) ∧
          (writeVersionFile fs filename d).1.files = fs.files) := by
  by_cases h : dirname filename = [] ∨ dirname filename ∈ (mkdirStep fs).dirs
  · have hdirs : (writeVersionFile fs filename d).1.dirs = (mkdirStep fs).dirs := by
      simp only [writeVersionFile, if_pos h]
    rw [if_pos h]
    exact ⟨hdirs, hdirs ▸ mem_mkdirStep_dirs fs, writeVersionFile_ok fs filename d h⟩
  · have hw := writeVersionFile_err fs filename d h
    rw [if_neg h, hw]
    exact ⟨rfl, mem_mkdirStep_dirs fs, rfl, mkdirStep_files fs⟩

/-- Claim C8: the command runner returns a nil error exactly on a zero exit
status; on success the result is the combined output trimmed of surrounding
whitespace, and on any failure (non-zero exit, timeout kill, spawn failure)
it returns the empty string next to the error. -/
theorem c8_runner (o : ExecOutcome) :
    ((runGitSingleLineReturn o).2 = none ↔ ∃ out, o = ExecOutcome.exited out) ∧
    (∀ out, runGitSingleLineReturn (ExecOutcome.exited out) = (trimSpace out, none)) ∧
    (∀ e out, runGitSingleLineReturn (ExecOutcome.failed e out) = ([], some e)) := by
  refine ⟨?_, fun out => rfl, fun e out => rfl⟩
  cases o <;> simp [runGitSingleLineReturn, combinedOutput]

/-- Witness for C8: a successful run trims the captured output. -/
theorem c8_runner_witness :
    runGitSingleLineReturn (ExecOutcome.exited " v2 \n".toList) = ("v2".toList, none) :=
  (c8_runner (ExecOutcome.exited " v2 \n".toList)).2.1 " v2 \n".toList

/-- Claim C9: the written file is the package clause, the provenance comment
and a const block declaring the version string, the commit hash and a clean
flag equal to the negation of the detected dirty state. -/
theorem c9_file_format (fs : FS) (filename : GoStr) (d : versionData)
    (h : dirname filename = [] ∨ dirname filename ∈ (mkdirStep fs).dirs) :
    lookupFile (writeVersionFile fs filename d).1.files filename =
      some ("package version\n// auto generated by github.com/Akagi201/utils-go/vergen\nconst (\n\tVgVersion   = \"".toList
        ++ d.describeTags ++ "\"\n\tVgHash      = \"".toList ++ d.commit
        ++ "\"\n\tVgClean     = ".toList ++ goBool (!d.dirty) ++ "\n)\n".toList) := by
  rw [(writeVersionFile_ok fs filename d h).2]
  have hlit : "package ".toList ++ DefaultPkgName
      ++ "\n// auto generated by github.com/Akagi201/utils-go/vergen\nconst (\n\tVgVersion   = \"".toList
      = "package version\n// auto generated by github.com/Akagi201/utils-go/vergen\nconst (\n\tVgVersion   = \"".toList := by
    decide
  simp only [versionFileContents]
  rw [hlit]

/-- Witness for C9 on a concrete record with a dirty tree: the clean flag in
the file reads `false`. -/
theorem c9_file_format_witness :
    lookupFile
      (writeVersionFile ⟨[], []⟩ "version/version.go".toList
        ⟨"v2+".toList, "abc".toList, true⟩).1.files "version/version.go".toList =
      some ("package version\n// auto generated by github.com/Akagi201/utils-go/vergen\nconst (\n\tVgVersion   = \"".toList
        ++ "v2+".toList ++ "\"\n\tVgHash      = \"".toList ++ "abc".toList
        ++ "\"\n\tVgClean     = ".toList ++ goBool (!true) ++ "\n)\n".toList) :=
  c9_file_format ⟨[], []⟩ "version/version.go".toList
    ⟨"v2+".toList, "abc".toList, true⟩ (by decide)

/-- Claim C10: when the ignore list contains the empty string, every line
matches an ignore entry, so every listing whatsoever is reported clean. -/
theorem c10_empty_ignore_always_clean (ignore : List GoStr) (h : [] ∈ ignore)
    (lines : List GoStr) :
    detectDirty ignore lines = false := by
  induction lines with
  | nil => rfl
  | cons v rest ih =>
    have hc : ignore.countP (fun v2 => goContains v v2) ≠ 0 := by
      intro h0
      have h1 := List.countP_eq_zero.mp h0 [] h
      simp [goContains_nil] at h1
    simp only [detectDirty, if_neg hc]
    exact ih

/-- Witness for C10: an ignore list holding the empty string declares even
`main.go` clean. -/
theorem c10_empty_ignore_always_clean_witness :
    detectDirty [[], "version.go".toList] ["main.go".toList, "x".toList] = false :=
  c10_empty_ignore_always_clean [[], "version.go".toList] (by decide)
    ["main.go".toList, "x".toList]

end Vergen
